import Mathlib

/-!
Verification of the benchmark-extraction script `cache_coloring/analysis.py`.

The script reads per-configuration result files named `{folder}/{type}_{size}.txt`,
scans each file two lines at a time looking for a dataset-marker line, extracts the
three metrics `disparity`, `mser`, `tracking` from (name line, value line) pairs of
the marked block, prepends the baseline (`none` pattern) value to each non-baseline
series, and normalizes series with `percent_change`.

Shallow embedding conventions:
* a file is a `List String` of its lines (without trailing newline); `readline` at
  end of file yields the empty string, as in Python, so the reader is modelled by
  `headD ""` / `tail`;
* Python `str.strip()` is modelled by `pstrip` (whitespace removal at both ends);
* Python `float(...)` is modelled by `parseFloat`, a parser for plain decimal
  literals (optional sign, digits, optional fractional part) returning `Option ℚ`;
  it fails (models `ValueError`) on anything else;
* the unbounded `while True` reader loop is modelled with explicit fuel; fuel
  exhaustion (`none`) stands for non-termination;
* Python exceptions that escape `per_vision_data` are modelled by `Except PyError`;
* real arithmetic is modelled over `ℚ` (the script only parses decimal literals,
  divides a value by itself and by a fixed baseline, and compares; these operations
  are exact in IEEE floating point for the properties stated below).
-/

/-- Model of Python `str.strip()`: remove whitespace from both ends of the line. -/
def pstrip (s : String) : String :=
  String.mk ((s.data.dropWhile Char.isWhitespace).reverse.dropWhile Char.isWhitespace).reverse

/-- Model of Python `line[0] == '-'` on a nonempty string: the first character is a dash.
The script only evaluates this after the emptiness test, so `head?` is faithful. -/
def startsDash (s : String) : Bool :=
  s.data.head? = some '-'

/-- Value of a list of decimal digit characters, most significant first. -/
def digitsToNat (l : List Char) : Nat :=
  l.foldl (fun n c => 10 * n + (c.toNat - '0'.toNat)) 0

/-- Helper for `parseFloat`: parse `digits [. digits]` (at least one digit) after the
optional sign has been removed; `sign` is `1` or `-1`. -/
def parseFloatAux (sign : ℚ) (rest : List Char) : Option ℚ :=
  let intPart := rest.takeWhile Char.isDigit
  let afterInt := rest.dropWhile Char.isDigit
  if afterInt = [] then
    if intPart = [] then none else some (sign * (digitsToNat intPart : ℚ))
  else if afterInt.head? = some '.' ∧ (afterInt.tail).all Char.isDigit ∧
      (intPart ≠ [] ∨ afterInt.tail ≠ []) then
    some (sign * ((digitsToNat (intPart ++ afterInt.tail) : ℚ) / (10 ^ (afterInt.tail).length : ℚ)))
  else none

/-- Model of Python `float(...)` restricted to plain decimal literals
(`[+-] digits [. digits]`, at least one digit): returns the exact rational value,
or `none` for text Python would reject with `ValueError`.  The script only ever
feeds it benchmark numbers in this plain decimal form. -/
def parseFloat (s : String) : Option ℚ :=
  if s.data.head? = some '-' then parseFloatAux (-1) s.data.tail
  else if s.data.head? = some '+' then parseFloatAux 1 s.data.tail
  else parseFloatAux 1 s.data

/-- The three per-metric accumulator lists `disparity[t]`, `mser[t]`, `tracking[t]`
for the access-pattern type currently being processed. -/
structure MetricAcc where
  disparity : List ℚ
  mser : List ℚ
  tracking : List ℚ

/-- The empty accumulators, as initialized at the top of the per-type loop. -/
def MetricAcc.empty : MetricAcc := ⟨[], [], []⟩

/-- Outcome of scanning one file: normal exit from the reader loop, or a raised
`ValueError` from `float(...)`. -/
inductive ScanResult where
  | ok (acc : MetricAcc)
  | err

/-- The metric-append block of the reader loop (executed when `collect_data == 1`):
`if line1 == 'disparity': disparity[t].append(float(line2))` and the two `elif`
branches for `mser` and `tracking`.  `none` models the `ValueError` raised by
`float` on unparsable text. -/
def appendStep (line1 line2 : String) (acc : MetricAcc) : Option MetricAcc :=
  if line1 = "disparity" then
    (parseFloat line2).map fun v => ⟨acc.disparity ++ [v], acc.mser, acc.tracking⟩
  else if line1 = "mser" then
    (parseFloat line2).map fun v => ⟨acc.disparity, acc.mser ++ [v], acc.tracking⟩
  else if line1 = "tracking" then
    (parseFloat line2).map fun v => ⟨acc.disparity, acc.mser, acc.tracking ++ [v]⟩
  else some acc

/-- The `while True` reader loop of `per_vision_data`, with fuel.  Each iteration
reads and strips two lines (`headD ""` models `readline` returning `""` at end of
file); if `collect_data` is set it runs the metric-append block, then the two
break tests (either line empty; either line starting with `-`); then the marker
tests: if the second line equals the dataset marker the loop reads one extra line
(`file2.tail`) and sets `collect_data`, and if the first line equals the marker it
sets `collect_data` directly.  `none` models fuel exhaustion, i.e. the loop not
having terminated within `fuel` iterations. -/
def scanFuel (ds : String) : Nat → Bool → List String → MetricAcc → Option ScanResult
  | 0, _, _, _ => none
  | n + 1, collecting, file, acc =>
    let line1 := pstrip (file.headD "")
    let file1 := file.tail
    let line2 := pstrip (file1.headD "")
    let file2 := file1.tail
    match (if collecting then appendStep line1 line2 acc else some acc) with
    | none => some .err
    | some acc₂ =>
      if collecting ∧ (line1 = "" ∨ line2 = "") then some (.ok acc₂)
      else if collecting ∧ (startsDash line1 ∨ startsDash line2) then some (.ok acc₂)
      else if line2 = ds then scanFuel ds n true file2.tail acc₂
      else if line1 = ds then scanFuel ds n true file2 acc₂
      else scanFuel ds n collecting file2 acc₂

/-- Model of Python `range(start, stop, step)` for a positive step. -/
def pythonRange (start stop step : Nat) : List Nat :=
  (List.range ((stop - start + step - 1) / step)).map (fun i => start + step * i)

/-- The interference-size list built at the top of `per_vision_data`:
`range(8, 64, 8)`, `range(64, 512, 32)`, `range(512, 8192 + 512, 512)`. -/
def per_vision_sizes : List Nat :=
  pythonRange 8 64 8 ++ pythonRange 64 512 32 ++ pythonRange 512 (8192 + 512) 512

/-- The identical interference-size list rebuilt at the top of `plot_array`. -/
def plot_array_sizes : List Nat :=
  pythonRange 8 64 8 ++ pythonRange 64 512 32 ++ pythonRange 512 (8192 + 512) 512

/-- The access-pattern types, in iteration order; `none` is the baseline. -/
def types : List String := ["none", "read", "write", "modify", "prefetch_l3"]

/-- The dataset marker for the `cif` workload resolution. -/
def dataset_cif : String := "--------------------------1--------------------------------"

/-- The dataset marker for the `vga` workload resolution. -/
def dataset_vga : String := "--------------------------2--------------------------------"

/-- The file name `folder + '/' + t + '_' + str(s) + '.txt'`. -/
def fileName (folder t : String) (s : Nat) : String :=
  folder ++ "/" ++ t ++ "_" ++ toString s ++ ".txt"

/-- Python exceptions that can escape `per_vision_data`: `FileNotFoundError` from
`open`, `ValueError` from `float`, `IndexError` from `...['none'][0]`. -/
inductive PyError where
  | fileNotFound (filename : String)
  | valueError
  | indexError

/-- The inner `for s in sizes` loop of `per_vision_data` for one access-pattern
type `t`: skip every size above 8 when `t = 'none'`, otherwise open the file
(a missing file raises `FileNotFoundError`) and run the reader loop, threading the
accumulators.  The filesystem is modelled by `fs : file name ↦ lines`. -/
def processSizes (fuel : Nat) (fs : String → Option (List String)) (folder ds t : String) :
    List Nat → MetricAcc → Option (Except PyError MetricAcc)
  | [], acc => some (.ok acc)
  | s :: rest, acc =>
    if t = "none" ∧ 8 < s then processSizes fuel fs folder ds t rest acc
    else
      match fs (fileName folder t s) with
      | none => some (.error (.fileNotFound (fileName folder t s)))
      | some content =>
        match scanFuel ds fuel false content acc with
        | none => none
        | some .err => some (.error .valueError)
        | some (.ok acc₂) => processSizes fuel fs folder ds t rest acc₂

/-- The three dictionaries `disparity`, `mser`, `tracking` returned by
`per_vision_data`, each keyed by access-pattern type. -/
structure VisionData where
  disparity : String → List ℚ
  mser : String → List ℚ
  tracking : String → List ℚ

/-- The dictionaries before any type has been processed. -/
def VisionData.empty : VisionData := ⟨fun _ => [], fun _ => [], fun _ => []⟩

/-- Dictionary update `d[k] = v`. -/
def dictInsert (d : String → List ℚ) (k : String) (v : List ℚ) : String → List ℚ :=
  fun x => if x = k then v else d x

/-- The outer `for t in types` loop of `per_vision_data`: initialize the three
lists for `t` to `[]`, run the size loop, store the results. -/
def buildDicts (fuel : Nat) (fs : String → Option (List String)) (folder ds : String) :
    List String → VisionData → Option (Except PyError VisionData)
  | [], r => some (.ok r)
  | t :: rest, r =>
    match processSizes fuel fs folder ds t per_vision_sizes MetricAcc.empty with
    | none => none
    | some (.error e) => some (.error e)
    | some (.ok acc) =>
      buildDicts fuel fs folder ds rest
        ⟨dictInsert r.disparity t acc.disparity,
         dictInsert r.mser t acc.mser,
         dictInsert r.tracking t acc.tracking⟩

/-- The final prepend loop of `per_vision_data`:
`for t in types[1:]: disparity[t].insert(0, disparity['none'][0]);`
`mser[t].insert(0, disparity['none'][0]); tracking[t].insert(0, tracking['none'][0])`.
Note the source really prepends `disparity['none'][0]`, not `mser['none'][0]`, to the
`mser` series; the embedding reproduces this.  Indexing an empty baseline list
raises `IndexError`. -/
def prependBaseline (r : VisionData) : Except PyError VisionData :=
  match (r.disparity "none").head? with
  | none => .error .indexError
  | some d0 =>
    match (r.tracking "none").head? with
    | none => .error .indexError
    | some t0 =>
      .ok ⟨fun k => if k ∈ types.tail then d0 :: r.disparity k else r.disparity k,
           fun k => if k ∈ types.tail then d0 :: r.mser k else r.mser k,
           fun k => if k ∈ types.tail then t0 :: r.tracking k else r.tracking k⟩

/-- `per_vision_data(folder, dataset)`: run the type loop over all access-pattern
types, then prepend the baseline values.  `none` models non-termination of some
reader loop; `some (.error e)` models an uncaught exception. -/
def per_vision_data (fuel : Nat) (fs : String → Option (List String)) (folder ds : String) :
    Option (Except PyError VisionData) :=
  match buildDicts fuel fs folder ds types VisionData.empty with
  | none => none
  | some (.error e) => some (.error e)
  | some (.ok r) => some (prependBaseline r)

/-- `percent_change(arr)`: if `arr[0] > arr[1]` replace `arr[0]` by `arr[1]`; divide
every element from index 1 on by the (possibly replaced) `arr[0]`; finally set
`arr[0] = 1`.  A list of fewer than two elements raises `IndexError` (modelled by
`none`).  Division is exact over `ℚ`; the claims below assume a nonzero baseline,
where Python float division is exact for the stated properties. -/
def percent_change (arr : List ℚ) : Option (List ℚ) :=
  match arr with
  | a0 :: a1 :: rest =>
    let base := if a0 > a1 then a1 else a0
    some (1 :: (a1 :: rest).map (fun x => x / base))
  | _ => none

/-- The explicit value of the interference-size sequence. -/
def sizesExplicit : List Nat :=
  [8, 16, 24, 32, 40, 48, 56,
   64, 96, 128, 160, 192, 224, 256, 288, 320, 352, 384, 416, 448, 480,
   512, 1024, 1536, 2048, 2560, 3072, 3584, 4096, 4608, 5120, 5632, 6144, 6656, 7168, 7680, 8192]

/-- C10 counterexample: the interference-size sequence has 37 elements, not 36 as
claimed. -/
theorem claim_C10_counterexample : per_vision_sizes.length = 37 ∧ 37 ≠ 36 :=
  ⟨by decide, by decide⟩

/-- C10 (amended): the interference-size sequence constructed in `per_vision_data`
is exactly 8,16,...,56 (step 8), then 64,96,...,480 (step 32), then
512,1024,...,8192 (step 512) — 37 elements in total, strictly increasing — and
`plot_array` constructs the identical sequence. -/
theorem claim_C10_amended :
    per_vision_sizes = sizesExplicit ∧
    plot_array_sizes = per_vision_sizes ∧
    List.Chain' (· < ·) per_vision_sizes ∧
    per_vision_sizes.length = 37 := by
  refine ⟨by decide, by decide, ?_, by decide⟩
  rw [show per_vision_sizes = sizesExplicit from by decide]
  simp [sizesExplicit, List.chain'_cons]

/-- C5: for a list with at least two elements and a nonzero effective baseline,
`percent_change` replaces `arr[0]` by `arr[1]` when `arr[1] < arr[0]`, divides every
element from index 1 on by that baseline, and sets index 0 to exactly 1; hence the
result's element 0 is exactly 1, and if originally `arr[1] < arr[0]` then the
result's element 1 is `arr[1] / arr[1] = 1` exactly. -/
theorem claim_C5_percent_change (a0 a1 : ℚ) (rest : List ℚ)
    (hbase : (if a0 > a1 then a1 else a0) ≠ 0) :
    ∃ out, percent_change (a0 :: a1 :: rest) = some out ∧
      out = 1 :: (a1 :: rest).map (fun x => x / (if a0 > a1 then a1 else a0)) ∧
      out.head? = some 1 ∧
      (a1 < a0 → out[1]? = some 1) := by
  refine ⟨1 :: (a1 :: rest).map (fun x => x / (if a0 > a1 then a1 else a0)),
    by simp [percent_change], rfl, rfl, ?_⟩
  intro hlt
  have hb : (if a0 > a1 then a1 else a0) = a1 := if_pos hlt
  rw [hb] at hbase ⊢
  simp [div_self hbase]

/-- C5 witness at `arr = [4, 2, 6]`. -/
theorem claim_C5_witness :
    ((if (4 : ℚ) > 2 then (2 : ℚ) else 4) ≠ 0) ∧
    (∃ out, percent_change [4, 2, 6] = some out ∧
      out = 1 :: ([(2 : ℚ), 6]).map (fun x => x / (if (4 : ℚ) > 2 then (2 : ℚ) else 4)) ∧
      out.head? = some 1 ∧
      ((2 : ℚ) < 4 → out[1]? = some 1)) :=
  ⟨by norm_num, claim_C5_percent_change 4 2 [6] (by norm_num)⟩

/-- C2 counterexample: for the file whose first line is the `cif` dataset marker,
immediately followed by the pairs ("disparity","1.5"), ("mser","2.0"),
("tracking","0.5") and a blank line, the scan extracts nothing at all (the line
right after the marker is consumed with the marker's pair, so every metric name
lands on the second position of its pair and is never matched); in particular the
result is not disparity=1.5, mser=2.0, tracking=0.5. -/
theorem claim_C2_counterexample :
    scanFuel dataset_cif 6 false
      [dataset_cif, "disparity", "1.5", "mser", "2.0", "tracking", "0.5", ""]
      MetricAcc.empty = some (.ok ⟨[], [], []⟩) ∧
    some (ScanResult.ok ⟨[], [], []⟩) ≠
      some (ScanResult.ok ⟨[(3 : ℚ) / 2], [2], [1 / 2]⟩) := by
  constructor
  · simp +decide [scanFuel, appendStep, MetricAcc.empty]
  · intro h
    simp only [Option.some.injEq, ScanResult.ok.injEq, MetricAcc.mk.injEq] at h
    exact absurd h.1 (by simp)

/-- C2 (amended): for a file whose first line is the dataset marker, whose second
line is any single non-data line (here "x"; the scan discards the line right after
the marker), and which then contains the line pairs ("disparity","1.5"),
("mser","2.0"), ("tracking","0.5") followed by a blank line, the scan yields
exactly disparity=1.5, mser=2.0, tracking=0.5 — one float per metric name present
in the block. -/
theorem claim_C2_amended :
    scanFuel dataset_cif 6 false
      [dataset_cif, "x", "disparity", "1.5", "mser", "2.0", "tracking", "0.5", ""]
      MetricAcc.empty = some (.ok ⟨[3 / 2], [2], [1 / 2]⟩) := by
  simp +decide [scanFuel, appendStep, MetricAcc.empty, parseFloat, parseFloatAux, digitsToNat,
    show pstrip "1.5" = "1.5" from by decide, show pstrip "2.0" = "2.0" from by decide,
    show pstrip "0.5" = "0.5" from by decide]
  norm_num

/-- C3: when the dataset marker arrives as the second line of a scanned pair
`(l1, marker)`, the scan consumes that pair, reads exactly one further line `x`
(which is discarded with the current pair), sets the collecting flag, and resumes
the two-line scan on the remaining lines; consequently the metric pairs of the
block following the marker are extracted — the second conjunct shows a block
`("disparity", "1.5")` two lines after the marker yielding disparity = 1.5. -/
theorem claim_C3_marker_second_line (ds l1 x : String) (rest : List String)
    (acc : MetricAcc) (n : Nat) (hds : pstrip ds = ds) :
    scanFuel ds (n + 1) false (l1 :: ds :: x :: rest) acc = scanFuel ds n true rest acc ∧
    (ds ≠ "1.5" →
      scanFuel ds (n + 3) false (l1 :: ds :: x :: ["disparity", "1.5", ""]) MetricAcc.empty =
        some (.ok ⟨[3 / 2], [], []⟩)) := by
  have hstep : ∀ (m : Nat) (r : List String) (a : MetricAcc),
      scanFuel ds (m + 1) false (l1 :: ds :: x :: r) a = scanFuel ds m true r a := by
    intro m r a
    simp only [scanFuel, List.headD, List.tail, hds]
    simp
  refine ⟨hstep n rest acc, ?_⟩
  intro hne
  rw [hstep (n + 2) ["disparity", "1.5", ""] MetricAcc.empty]
  simp +decide [scanFuel, appendStep, MetricAcc.empty, parseFloat, parseFloatAux, digitsToNat,
    Ne.symm hne, show pstrip "1.5" = "1.5" from by decide]
  norm_num

/-- C3 witness: the step applied with the `cif` marker arriving as the second line
of the pair `("a", marker)`, followed by the extra line "b". -/
theorem claim_C3_witness :
    (pstrip dataset_cif = dataset_cif ∧ dataset_cif ≠ "1.5") ∧
    (scanFuel dataset_cif 1 false ["a", dataset_cif, "b"] MetricAcc.empty =
        scanFuel dataset_cif 0 true [] MetricAcc.empty ∧
      (dataset_cif ≠ "1.5" →
        scanFuel dataset_cif 3 false ["a", dataset_cif, "b", "disparity", "1.5", ""]
            MetricAcc.empty = some (.ok ⟨[3 / 2], [], []⟩))) :=
  ⟨⟨by decide, by decide⟩,
    claim_C3_marker_second_line dataset_cif "a" "b" [] MetricAcc.empty 0 (by decide)⟩

/-- C6: while collecting, a pair in which either stripped line is empty or either
stripped line starts with a dash stops the scan of the file at that pair: the
result exists (the loop terminates there) and is the same whatever lines follow,
so no metric line after the terminator pair contributes to any series. -/
theorem claim_C6_terminator (ds l1 l2 : String) (acc : MetricAcc) (n : Nat)
    (h : pstrip l1 = "" ∨ pstrip l2 = "" ∨
      startsDash (pstrip l1) = true ∨ startsDash (pstrip l2) = true) :
    ∀ rest rest' : List String, ∃ r,
      scanFuel ds (n + 1) true (l1 :: l2 :: rest) acc = some r ∧
      scanFuel ds (n + 1) true (l1 :: l2 :: rest') acc = some r := by
  intro rest rest'
  simp only [scanFuel, List.headD, List.tail]
  cases happ : appendStep (pstrip l1) (pstrip l2) acc with
  | none => exact ⟨.err, rfl, rfl⟩
  | some acc₂ =>
    by_cases hE : pstrip l1 = "" ∨ pstrip l2 = ""
    · refine ⟨.ok acc₂, ?_, ?_⟩ <;> simp [hE]
    · have hD : startsDash (pstrip l1) = true ∨ startsDash (pstrip l2) = true := by
        rcases h with h | h | h | h
        · exact absurd (Or.inl h) hE
        · exact absurd (Or.inr h) hE
        · exact Or.inl h
        · exact Or.inr h
      refine ⟨.ok acc₂, ?_, ?_⟩ <;> simp [hE, hD]

/-- C6 witness: while collecting, the pair ("tracking", "-1.0") appends the value
and then stops the scan; the lines after it never contribute. -/
theorem claim_C6_witness :
    (pstrip "tracking" = "" ∨ pstrip "-1.0" = "" ∨
      startsDash (pstrip "tracking") = true ∨ startsDash (pstrip "-1.0") = true) ∧
    (∃ r, scanFuel dataset_cif 1 true ["tracking", "-1.0", "disparity", "7"]
          MetricAcc.empty = some r ∧
        scanFuel dataset_cif 1 true ["tracking", "-1.0"] MetricAcc.empty = some r) :=
  ⟨by decide,
    claim_C6_terminator dataset_cif "tracking" "-1.0" MetricAcc.empty 0 (by decide)
      ["disparity", "7"] []⟩

/-- Stripping the empty line (end of file) yields the empty line. -/
lemma pstrip_empty : pstrip "" = "" := by decide

/-- If no line of the file strips to the dataset marker (and the marker is not the
empty string), the reader loop never sets `collect_data`, every break stays
guarded behind the flag, and the loop runs forever: the scan fails for every
amount of fuel. -/
lemma scan_no_marker (ds : String) (hne : ds ≠ "") :
    ∀ (n : Nat) (file : List String) (acc : MetricAcc),
      (∀ l ∈ file, pstrip l ≠ ds) → scanFuel ds n false file acc = none := by
  have hne' : ¬ ("" : String) = ds := fun hc => hne hc.symm
  intro n
  induction n with
  | zero => intro file acc _; rfl
  | succ n ih =>
    intro file acc h
    rcases file with _ | ⟨a, _ | ⟨b, rest⟩⟩
    · have h2 := ih [] acc (by intro l hl; cases hl)
      simp [scanFuel, pstrip_empty, hne', h2]
    · have ha := h a (by simp)
      have h2 := ih [] acc (by intro l hl; cases hl)
      simp [scanFuel, pstrip_empty, hne', ha, h2]
    · have ha := h a (by simp)
      have hb := h b (by simp)
      have h2 := ih rest acc (by intro l hl; exact h l (by simp [hl]))
      simp [scanFuel, ha, hb, h2]

/-- Once `collect_data` is set, the loop terminates within `length + 1`
iterations: every iteration either breaks (end of file reads empty lines), raises
from `float`, or consumes at least two lines. -/
lemma scan_collecting_some (ds : String) :
    ∀ (n : Nat) (file : List String) (acc : MetricAcc), file.length < n →
      ∃ r, scanFuel ds n true file acc = some r := by
  intro n
  induction n with
  | zero => intro file acc hl; exact absurd hl (Nat.not_lt_zero _)
  | succ n ih =>
    intro file acc hl
    rcases file with _ | ⟨a, _ | ⟨b, rest⟩⟩
    · exact ⟨.ok acc, by simp +decide [scanFuel, pstrip_empty, appendStep]⟩
    · cases happ : appendStep (pstrip a) "" acc with
      | none => exact ⟨.err, by simp [scanFuel, pstrip_empty, happ]⟩
      | some acc₂ => exact ⟨.ok acc₂, by simp [scanFuel, pstrip_empty, happ]⟩
    · cases happ : appendStep (pstrip a) (pstrip b) acc with
      | none => exact ⟨.err, by simp [scanFuel, happ]⟩
      | some acc₂ =>
        by_cases hE : pstrip a = "" ∨ pstrip b = ""
        · exact ⟨.ok acc₂, by simp [scanFuel, happ, hE]⟩
        · by_cases hD : startsDash (pstrip a) = true ∨ startsDash (pstrip b) = true
          · refine ⟨.ok acc₂, ?_⟩
            rcases hD with hD | hD <;> simp [scanFuel, happ, hE, hD]
          · by_cases h2 : pstrip b = ds
            · have hlen : rest.tail.length < n := by
                simp only [List.length_cons] at hl
                have h3 : rest.tail.length = rest.length - 1 := List.length_tail rest
                omega
              obtain ⟨r, hr⟩ := ih rest.tail acc₂ hlen
              rw [h2] at happ hE hD
              refine ⟨r, ?_⟩
              simp [scanFuel, happ, hE, hD, h2, hr]
            · by_cases h1 : pstrip a = ds
              · have hlen : rest.length < n := by simp at hl; omega
                obtain ⟨r, hr⟩ := ih rest acc₂ hlen
                rw [h1] at happ hE hD
                refine ⟨r, ?_⟩
                simp [scanFuel, happ, hE, hD, h2, h1, hr]
              · have hlen : rest.length < n := by simp at hl; omega
                obtain ⟨r, hr⟩ := ih rest acc₂ hlen
                refine ⟨r, ?_⟩
                simp [scanFuel, happ, hE, hD, h2, h1, hr]

/-- If some line of the file strips to the dataset marker, the scan reaches it
(no break can fire before `collect_data` is set), sets the flag, and then
terminates: some amount of fuel makes the scan return a result. -/
lemma scan_marker_terminates (ds : String) (hne : ds ≠ "") :
    ∀ (N : Nat) (file : List String) (acc : MetricAcc), file.length < N →
      (∃ l ∈ file, pstrip l = ds) →
      ∃ n r, scanFuel ds n false file acc = some r := by
  have hne' : ¬ ("" : String) = ds := fun hc => hne hc.symm
  intro N
  induction N with
  | zero => intro file acc hl _; exact absurd hl (Nat.not_lt_zero _)
  | succ N ih =>
    intro file acc hl hm
    rcases file with _ | ⟨a, _ | ⟨b, rest⟩⟩
    · obtain ⟨l, hl', _⟩ := hm
      cases hl'
    · obtain ⟨l, hl', hlm⟩ := hm
      have ha : pstrip a = ds := by
        simp only [List.mem_singleton] at hl'
        subst hl'
        exact hlm
      obtain ⟨n₀, hn₀⟩ : ∃ m, ([] : List String).length < m := ⟨1, by simp⟩
      obtain ⟨r, hr⟩ := scan_collecting_some ds n₀ [] acc hn₀
      exact ⟨n₀ + 1, r, by simp [scanFuel, pstrip_empty, hne', ha, hr]⟩
    · by_cases hb : pstrip b = ds
      · obtain ⟨n₀, hn₀⟩ : ∃ m, rest.tail.length < m := ⟨rest.tail.length + 1, by omega⟩
        obtain ⟨r, hr⟩ := scan_collecting_some ds n₀ rest.tail acc hn₀
        exact ⟨n₀ + 1, r, by simp [scanFuel, hb, hr]⟩
      · by_cases ha : pstrip a = ds
        · obtain ⟨n₀, hn₀⟩ : ∃ m, rest.length < m := ⟨rest.length + 1, by omega⟩
          obtain ⟨r, hr⟩ := scan_collecting_some ds n₀ rest acc hn₀
          exact ⟨n₀ + 1, r, by simp [scanFuel, ha, hb, hr]⟩
        · have hm' : ∃ l ∈ rest, pstrip l = ds := by
            obtain ⟨l, hl', hlm⟩ := hm
            simp only [List.mem_cons] at hl'
            rcases hl' with h | h | h
            · subst h; exact absurd hlm ha
            · subst h; exact absurd hlm hb
            · exact ⟨l, h, hlm⟩
          obtain ⟨n, r, hr⟩ := ih rest acc (by simp at hl; omega) hm'
          exact ⟨n + 1, r, by simp [scanFuel, ha, hb, hr]⟩

/-- C4: the per-file reader loop terminates exactly when the dataset marker occurs
(as either element of some scanned pair, i.e. as some line of the file): once the
collecting flag is set, end of file makes the empty-line break fire within finite
fuel; and for a finite file that never contains the marker, every break is guarded
by the collecting flag and no amount of fuel makes the loop finish. -/
theorem claim_C4_termination_iff_marker (ds : String) (file : List String)
    (acc : MetricAcc) (hne : ds ≠ "") :
    (∃ l ∈ file, pstrip l = ds) ↔ ∃ n r, scanFuel ds n false file acc = some r := by
  constructor
  · intro hm
    exact scan_marker_terminates ds hne (file.length + 1) file acc (by omega) hm
  · rintro ⟨n, r, hr⟩
    by_contra hnm
    push_neg at hnm
    rw [scan_no_marker ds hne n file acc hnm] at hr
    cases hr

/-- C4 witness: a file containing the `cif` marker scans to a result; the iff is
instantiated at that concrete file. -/
theorem claim_C4_witness :
    dataset_cif ≠ "" ∧
    ((∃ l ∈ [dataset_cif, "disparity", "7", ""], pstrip l = dataset_cif) ↔
      ∃ n r, scanFuel dataset_cif n false [dataset_cif, "disparity", "7", ""]
        MetricAcc.empty = some r) :=
  ⟨by decide,
    claim_C4_termination_iff_marker dataset_cif [dataset_cif, "disparity", "7", ""]
      MetricAcc.empty (by decide)⟩

/-- For the baseline type `none`, a size list whose members all exceed 8 is skipped
entirely: the accumulators pass through untouched and no file is consulted. -/
lemma processSizes_skip (fuel : Nat) (fs : String → Option (List String))
    (folder ds : String) :
    ∀ (l : List Nat), (∀ s ∈ l, 8 < s) →
      ∀ acc, processSizes fuel fs folder ds "none" l acc = some (.ok acc) := by
  intro l
  induction l with
  | nil => intro _ acc; rfl
  | cons s rest ih =>
    intro h acc
    have hs : 8 < s := h s (by simp)
    have hrec := ih (fun x hx => h x (by simp [hx])) acc
    simp [processSizes, hs, hrec]

/-- For a non-baseline type, if every file of the size list scans to exactly one
value per metric, the size loop appends those values in order. -/
lemma processSizes_noskip (fuel : Nat) (fs : String → Option (List String))
    (folder ds t : String) (vd vm vt : Nat → ℚ) (ht : ¬ t = "none") :
    ∀ (l : List Nat),
      (∀ s ∈ l, ∃ c, fs (fileName folder t s) = some c ∧
        ∀ acc, scanFuel ds fuel false c acc =
          some (.ok ⟨acc.disparity ++ [vd s], acc.mser ++ [vm s], acc.tracking ++ [vt s]⟩)) →
      ∀ acc, processSizes fuel fs folder ds t l acc =
        some (.ok ⟨acc.disparity ++ l.map vd, acc.mser ++ l.map vm, acc.tracking ++ l.map vt⟩) := by
  intro l
  induction l with
  | nil => intro _ acc; simp [processSizes]
  | cons s rest ih =>
    intro h acc
    obtain ⟨c, hc, hscan⟩ := h s (by simp)
    have hrec := ih (fun x hx => h x (by simp [hx]))
      ⟨acc.disparity ++ [vd s], acc.mser ++ [vm s], acc.tracking ++ [vt s]⟩
    simp [processSizes, ht, hc, hscan, hrec, List.append_assoc]

/-- The three dictionaries as they stand after the five iterations of the type
loop, when each scanned file contributed the single value `f t s` to the series
of the dictionary in question. -/
def builtSeries (f : String → Nat → ℚ) : String → List ℚ :=
  dictInsert (dictInsert (dictInsert (dictInsert (dictInsert (fun _ => [])
    "none" [f "none" 8])
    "read" (per_vision_sizes.map (f "read")))
    "write" (per_vision_sizes.map (f "write")))
    "modify" (per_vision_sizes.map (f "modify")))
    "prefetch_l3" (per_vision_sizes.map (f "prefetch_l3"))

/-- The value `per_vision_data` returns in the error-free case: the built
dictionaries with the baseline values prepended to every non-baseline series —
the `mser` series receives the baseline of `disparity`, as in the source. -/
def prependedData (vd vm vt : String → Nat → ℚ) : VisionData :=
  ⟨fun k => if k ∈ types.tail then vd "none" 8 :: builtSeries vd k else builtSeries vd k,
   fun k => if k ∈ types.tail then vd "none" 8 :: builtSeries vm k else builtSeries vm k,
   fun k => if k ∈ types.tail then vt "none" 8 :: builtSeries vt k else builtSeries vt k⟩

/-- Main characterization of `per_vision_data` on well-formed inputs: if every
file the function opens scans to exactly one value per metric (value `vd t s`,
`vm t s`, `vt t s` for metric and file), the function returns `prependedData`. -/
lemma pvd_ok (fuel : Nat) (fs : String → Option (List String)) (folder ds : String)
    (vd vm vt : String → Nat → ℚ)
    (h : ∀ t ∈ types, ∀ s ∈ per_vision_sizes, ¬(t = "none" ∧ 8 < s) →
      ∃ c, fs (fileName folder t s) = some c ∧
        ∀ acc, scanFuel ds fuel false c acc =
          some (.ok ⟨acc.disparity ++ [vd t s], acc.mser ++ [vm t s],
            acc.tracking ++ [vt t s]⟩)) :
    per_vision_data fuel fs folder ds = some (.ok (prependedData vd vm vt)) := by
  have Pnone : processSizes fuel fs folder ds "none" per_vision_sizes MetricAcc.empty =
      some (.ok ⟨[vd "none" 8], [vm "none" 8], [vt "none" 8]⟩) := by
    obtain ⟨c, hc, hscan⟩ := h "none" (by decide) 8 (by decide) (by decide)
    have hskip := processSizes_skip fuel fs folder ds per_vision_sizes.tail (by decide)
      ⟨[vd "none" 8], [vm "none" 8], [vt "none" 8]⟩
    rw [show per_vision_sizes = 8 :: per_vision_sizes.tail from by decide]
    simp [processSizes, hc, hscan, MetricAcc.empty, hskip]
  have Pread : processSizes fuel fs folder ds "read" per_vision_sizes MetricAcc.empty =
      some (.ok ⟨per_vision_sizes.map (vd "read"), per_vision_sizes.map (vm "read"),
        per_vision_sizes.map (vt "read")⟩) := by
    have := processSizes_noskip fuel fs folder ds "read" (vd "read") (vm "read") (vt "read")
      (by decide) per_vision_sizes
      (fun s hs => h "read" (by decide) s hs (by simp)) MetricAcc.empty
    simpa [MetricAcc.empty] using this
  have Pwrite : processSizes fuel fs folder ds "write" per_vision_sizes MetricAcc.empty =
      some (.ok ⟨per_vision_sizes.map (vd "write"), per_vision_sizes.map (vm "write"),
        per_vision_sizes.map (vt "write")⟩) := by
    have := processSizes_noskip fuel fs folder ds "write" (vd "write") (vm "write") (vt "write")
      (by decide) per_vision_sizes
      (fun s hs => h "write" (by decide) s hs (by simp)) MetricAcc.empty
    simpa [MetricAcc.empty] using this
  have Pmodify : processSizes fuel fs folder ds "modify" per_vision_sizes MetricAcc.empty =
      some (.ok ⟨per_vision_sizes.map (vd "modify"), per_vision_sizes.map (vm "modify"),
        per_vision_sizes.map (vt "modify")⟩) := by
    have := processSizes_noskip fuel fs folder ds "modify" (vd "modify") (vm "modify")
      (vt "modify") (by decide) per_vision_sizes
      (fun s hs => h "modify" (by decide) s hs (by simp)) MetricAcc.empty
    simpa [MetricAcc.empty] using this
  have Ppre : processSizes fuel fs folder ds "prefetch_l3" per_vision_sizes MetricAcc.empty =
      some (.ok ⟨per_vision_sizes.map (vd "prefetch_l3"), per_vision_sizes.map (vm "prefetch_l3"),
        per_vision_sizes.map (vt "prefetch_l3")⟩) := by
    have := processSizes_noskip fuel fs folder ds "prefetch_l3" (vd "prefetch_l3")
      (vm "prefetch_l3") (vt "prefetch_l3") (by decide) per_vision_sizes
      (fun s hs => h "prefetch_l3" (by decide) s hs (by simp)) MetricAcc.empty
    simpa [MetricAcc.empty] using this
  have hB : buildDicts fuel fs folder ds types VisionData.empty =
      some (.ok ⟨builtSeries vd, builtSeries vm, builtSeries vt⟩) := by
    simp only [types, buildDicts, Pnone, Pread, Pwrite, Pmodify, Ppre, VisionData.empty,
      builtSeries]
  have hd : builtSeries vd "none" = [vd "none" 8] := by
    simp +decide [builtSeries, dictInsert]
  have htr : builtSeries vt "none" = [vt "none" 8] := by
    simp +decide [builtSeries, dictInsert]
  simp only [per_vision_data, hB, prependBaseline, hd, htr, prependedData]
  rfl

/-- A concrete well-formed result file: marker, one header line, then one value
for each metric (disparity 1, mser 2, tracking 3), terminated by a blank line. -/
def sampleLines : List String :=
  ["D", "x", "disparity", "1", "mser", "2", "tracking", "3", ""]

/-- A concrete filesystem in which every file has the contents `sampleLines`. -/
def sampleFS : String → Option (List String) := fun _ => some sampleLines

/-- Scanning `sampleLines` for marker "D" appends exactly one value per metric. -/
lemma sampleScan : ∀ acc, scanFuel "D" 6 false sampleLines acc =
    some (.ok ⟨acc.disparity ++ [1], acc.mser ++ [2], acc.tracking ++ [3]⟩) := by
  intro acc
  simp +decide [sampleLines, scanFuel, appendStep, parseFloat, parseFloatAux, digitsToNat]

/-- The well-formedness hypothesis of `pvd_ok`, discharged for `sampleFS` with the
constant per-metric values 1, 2, 3. -/
lemma sampleH : ∀ t ∈ types, ∀ s ∈ per_vision_sizes, ¬(t = "none" ∧ 8 < s) →
    ∃ c, sampleFS (fileName "f" t s) = some c ∧
      ∀ acc, scanFuel "D" 6 false c acc =
        some (.ok ⟨acc.disparity ++ [(fun (_ : String) (_ : Nat) => (1 : ℚ)) t s],
          acc.mser ++ [(fun (_ : String) (_ : Nat) => (2 : ℚ)) t s],
          acc.tracking ++ [(fun (_ : String) (_ : Nat) => (3 : ℚ)) t s]⟩) :=
  fun _ _ _ _ _ => ⟨sampleLines, rfl, sampleScan⟩

/-- C1: the baseline-prepend step is buggy for `mser`.  On the concrete run over
`sampleFS` (where the `none` file extracts disparity 1 and mser 2), the first
element of the `mser` series of the `read` pattern is 1 — the `none` pattern's
`disparity` value — and not 2, the `none` pattern's `mser` value, because the
source line reads `mser[t].insert(0, disparity['none'][0])`.  This contradicts
the claim (and the spec's symmetric description), with the code being the
obvious copy-paste slip. -/
theorem claim_C1_mser_baseline_bug :
    ∃ r, per_vision_data 6 sampleFS "f" "D" = some (.ok r) ∧
      (r.mser "none").head? = some 2 ∧
      (r.mser "read").head? = some 1 ∧
      ¬ ((1 : ℚ) = 2) := by
  refine ⟨prependedData (fun _ _ => 1) (fun _ _ => 2) (fun _ _ => 3),
    pvd_ok 6 sampleFS "f" "D" _ _ _ sampleH, ?_, ?_, by norm_num⟩
  · simp +decide [prependedData, builtSeries, dictInsert, types]
  · simp +decide [prependedData, builtSeries, dictInsert, types]

/-- C7 counterexample: on a run in which every opened file contributes exactly one
value per metric, every non-baseline series has length 38, not 37 as claimed (the
size list has 37 entries, not 36). -/
theorem claim_C7_counterexample :
    (∃ r, per_vision_data 6 sampleFS "f" "D" = some (.ok r) ∧
      (r.disparity "read").length = 38) ∧ 38 ≠ 37 := by
  constructor
  · refine ⟨prependedData (fun _ _ => 1) (fun _ _ => 2) (fun _ _ => 3),
      pvd_ok 6 sampleFS "f" "D" _ _ _ sampleH, ?_⟩
    simp +decide [prependedData, builtSeries, dictInsert, types]
  · decide

/-- C7 (amended): under the precondition that every opened result file contributes
exactly one value per metric, after `per_vision_data` returns, every non-baseline
series (each metric, each of read/write/modify/prefetch_l3) has length
`len(sizes) + 1 = 38` (the size list has 37 entries), and each `none` series has
length 1. -/
theorem claim_C7_amended (fuel : Nat) (fs : String → Option (List String))
    (folder ds : String) (vd vm vt : String → Nat → ℚ)
    (h : ∀ t ∈ types, ∀ s ∈ per_vision_sizes, ¬(t = "none" ∧ 8 < s) →
      ∃ c, fs (fileName folder t s) = some c ∧
        ∀ acc, scanFuel ds fuel false c acc =
          some (.ok ⟨acc.disparity ++ [vd t s], acc.mser ++ [vm t s],
            acc.tracking ++ [vt t s]⟩)) :
    ∃ r, per_vision_data fuel fs folder ds = some (.ok r) ∧
      (∀ t ∈ types, ¬ t = "none" →
        (r.disparity t).length = per_vision_sizes.length + 1 ∧
        (r.mser t).length = per_vision_sizes.length + 1 ∧
        (r.tracking t).length = per_vision_sizes.length + 1) ∧
      per_vision_sizes.length + 1 = 38 ∧
      (r.disparity "none").length = 1 ∧
      (r.mser "none").length = 1 ∧
      (r.tracking "none").length = 1 := by
  refine ⟨prependedData vd vm vt, pvd_ok fuel fs folder ds vd vm vt h, ?_, by decide,
    ?_, ?_, ?_⟩
  · intro t ht hn
    simp only [types, List.mem_cons, List.not_mem_nil, or_false] at ht
    rcases ht with h | h | h | h | h
    · exact absurd h hn
    · subst h
      refine ⟨?_, ?_, ?_⟩ <;> simp +decide [prependedData, builtSeries, dictInsert, types]
    · subst h
      refine ⟨?_, ?_, ?_⟩ <;> simp +decide [prependedData, builtSeries, dictInsert, types]
    · subst h
      refine ⟨?_, ?_, ?_⟩ <;> simp +decide [prependedData, builtSeries, dictInsert, types]
    · subst h
      refine ⟨?_, ?_, ?_⟩ <;> simp +decide [prependedData, builtSeries, dictInsert, types]
  · simp +decide [prependedData, builtSeries, dictInsert, types]
  · simp +decide [prependedData, builtSeries, dictInsert, types]
  · simp +decide [prependedData, builtSeries, dictInsert, types]

/-- C7 witness: the amended statement applied to the concrete run over `sampleFS`
(every file contributes disparity 1, mser 2, tracking 3). -/
theorem claim_C7_witness :
    ∃ r, per_vision_data 6 sampleFS "f" "D" = some (.ok r) ∧
      (∀ t ∈ types, ¬ t = "none" →
        (r.disparity t).length = per_vision_sizes.length + 1 ∧
        (r.mser t).length = per_vision_sizes.length + 1 ∧
        (r.tracking t).length = per_vision_sizes.length + 1) ∧
      per_vision_sizes.length + 1 = 38 ∧
      (r.disparity "none").length = 1 ∧
      (r.mser "none").length = 1 ∧
      (r.tracking "none").length = 1 :=
  claim_C7_amended 6 sampleFS "f" "D" (fun _ _ => 1) (fun _ _ => 2) (fun _ _ => 3) sampleH

/-- C8: for the `none` access-pattern the size loop consults the filesystem only
for the file of the smallest size, 8: the outcome is unchanged by replacing the
filesystem with any other one agreeing on `none_8.txt` (first conjunct — no other
file is opened), and is the outcome of running the loop on the singleton size
list `[8]` (second conjunct — every size above 8 is skipped). -/
lemma processSizes_nil (fuel : Nat) (fs : String → Option (List String))
    (folder ds t : String) (acc : MetricAcc) :
    processSizes fuel fs folder ds t [] acc = some (.ok acc) := rfl

/-- One unfolding step of the size loop, stated as an equation so rewrites can be
applied one size at a time. -/
lemma processSizes_cons (fuel : Nat) (fs : String → Option (List String))
    (folder ds t : String) (s : Nat) (rest : List Nat) (acc : MetricAcc) :
    processSizes fuel fs folder ds t (s :: rest) acc =
      if t = "none" ∧ 8 < s then processSizes fuel fs folder ds t rest acc
      else
        match fs (fileName folder t s) with
        | none => some (.error (.fileNotFound (fileName folder t s)))
        | some content =>
          match scanFuel ds fuel false content acc with
          | none => none
          | some .err => some (.error .valueError)
          | some (.ok acc₂) => processSizes fuel fs folder ds t rest acc₂ := rfl

theorem claim_C8_none_smallest_only (fuel : Nat)
    (fs fs' : String → Option (List String)) (folder ds : String) (acc : MetricAcc)
    (h : fs (fileName folder "none" 8) = fs' (fileName folder "none" 8)) :
    processSizes fuel fs folder ds "none" per_vision_sizes acc =
      processSizes fuel fs' folder ds "none" per_vision_sizes acc ∧
    processSizes fuel fs folder ds "none" per_vision_sizes acc =
      processSizes fuel fs folder ds "none" [8] acc := by
  have htail : ∀ s ∈ per_vision_sizes.tail, 8 < s := by decide
  have hskip := processSizes_skip fuel fs folder ds per_vision_sizes.tail htail
  have hskip' := processSizes_skip fuel fs' folder ds per_vision_sizes.tail htail
  have hsz : per_vision_sizes = 8 :: per_vision_sizes.tail := by decide
  rw [hsz]
  constructor
  · rw [processSizes_cons fuel fs folder ds "none" 8 per_vision_sizes.tail acc,
      processSizes_cons fuel fs' folder ds "none" 8 per_vision_sizes.tail acc,
      if_neg (show ¬("none" = "none" ∧ 8 < 8) by decide),
      if_neg (show ¬("none" = "none" ∧ 8 < 8) by decide), h]
    cases fs' (fileName folder "none" 8) with
    | none => rfl
    | some c =>
      cases scanFuel ds fuel false c acc with
      | none => rfl
      | some r =>
        cases r with
        | err => rfl
        | ok acc₂ => simp only [hskip, hskip']
  · rw [processSizes_cons fuel fs folder ds "none" 8 per_vision_sizes.tail acc,
      processSizes_cons fuel fs folder ds "none" 8 [] acc,
      if_neg (show ¬("none" = "none" ∧ 8 < 8) by decide),
      if_neg (show ¬("none" = "none" ∧ 8 < 8) by decide)]
    cases fs (fileName folder "none" 8) with
    | none => rfl
    | some c =>
      cases scanFuel ds fuel false c acc with
      | none => rfl
      | some r =>
        cases r with
        | err => rfl
        | ok acc₂ => simp only [hskip, processSizes_nil]

/-- C8 witness: two filesystems agreeing on `f/none_8.txt` (one empty, the other
populated everywhere else) give the same outcome for the `none` size loop. -/
theorem claim_C8_witness :
    ((fun _ => (none : Option (List String))) (fileName "f" "none" 8) =
      (fun n => if n = fileName "f" "none" 8 then none else some sampleLines)
        (fileName "f" "none" 8)) ∧
    (processSizes 6 (fun _ => none) "f" "D" "none" per_vision_sizes MetricAcc.empty =
      processSizes 6 (fun n => if n = fileName "f" "none" 8 then none else some sampleLines)
        "f" "D" "none" per_vision_sizes MetricAcc.empty ∧
    processSizes 6 (fun _ => none) "f" "D" "none" per_vision_sizes MetricAcc.empty =
      processSizes 6 (fun _ => none) "f" "D" "none" [8] MetricAcc.empty) :=
  ⟨by simp, claim_C8_none_smallest_only 6 (fun _ => none)
    (fun n => if n = fileName "f" "none" 8 then none else some sampleLines)
    "f" "D" MetricAcc.empty (by simp)⟩

/-- If the size list contains a non-skipped size whose file is missing or scans to
a `ValueError`, the size loop can never return normally: the run is aborted by a
missing file, a parse error, an earlier error, or non-termination of an earlier
scan, but never yields accumulated partial results. -/
lemma processSizes_never_ok (fuel : Nat) (fs : String → Option (List String))
    (folder ds t : String) (s : Nat)
    (hbad : fs (fileName folder t s) = none ∨
      ∃ c, fs (fileName folder t s) = some c ∧
        ∀ acc, scanFuel ds fuel false c acc = some .err)
    (hskip : ¬(t = "none" ∧ 8 < s)) :
    ∀ (l : List Nat), s ∈ l → ∀ acc a,
      processSizes fuel fs folder ds t l acc ≠ some (.ok a) := by
  intro l
  induction l with
  | nil => intro hs; cases hs
  | cons s' rest ih =>
    intro hs acc a
    rw [processSizes_cons]
    by_cases hsk : t = "none" ∧ 8 < s'
    · rw [if_pos hsk]
      have hs' : s ∈ rest := by
        rcases List.mem_cons.mp hs with h | h
        · subst h; exact absurd hsk hskip
        · exact h
      exact ih hs' acc a
    · rw [if_neg hsk]
      cases hfs : fs (fileName folder t s') with
      | none => simp [hfs]
      | some c =>
        cases hscan : scanFuel ds fuel false c acc with
        | none => simp [hfs, hscan]
        | some r =>
          cases r with
          | err => simp [hfs, hscan]
          | ok acc₂ =>
            by_cases hss : s' = s
            · subst hss
              rcases hbad with hb | ⟨c', hc', hsc⟩
              · rw [hb] at hfs; cases hfs
              · rw [hc'] at hfs
                injection hfs with hcc
                subst hcc
                rw [hsc acc] at hscan
                cases hscan
            · have hs' : s ∈ rest := by
                rcases List.mem_cons.mp hs with h | h
                · exact absurd h.symm hss
                · exact h
              have hrec := ih hs' acc₂ a
              simpa [hscan] using hrec

/-- If the size loop of some listed type can never return normally, the type loop
can never return normally either. -/
lemma buildDicts_never_ok (fuel : Nat) (fs : String → Option (List String))
    (folder ds t : String)
    (hps : ∀ acc a, processSizes fuel fs folder ds t per_vision_sizes acc ≠ some (.ok a)) :
    ∀ (ts : List String), t ∈ ts → ∀ r r',
      buildDicts fuel fs folder ds ts r ≠ some (.ok r') := by
  intro ts
  induction ts with
  | nil => intro ht; cases ht
  | cons t' rest ih =>
    intro ht r r'
    show buildDicts fuel fs folder ds (t' :: rest) r ≠ some (.ok r')
    cases hp : processSizes fuel fs folder ds t' per_vision_sizes MetricAcc.empty with
    | none => simp [buildDicts, hp]
    | some res =>
      cases res with
      | error e => simp [buildDicts, hp]
      | ok acc =>
        by_cases htt : t' = t
        · subst htt
          exact absurd hp (hps MetricAcc.empty acc)
        · have ht' : t ∈ rest := by
            rcases List.mem_cons.mp ht with h | h
            · exact absurd h.symm htt
            · exact h
          have := ih ht'
            ⟨dictInsert r.disparity t' acc.disparity,
             dictInsert r.mser t' acc.mser,
             dictInsert r.tracking t' acc.tracking⟩ r'
          simpa [buildDicts, hp] using this

/-- C9: `per_vision_data` performs no error recovery.  If a required file (type in
the type list, size in the size list, not skipped) is missing, or its scan raises
a `ValueError` from `float`, `per_vision_data` never returns a normal result —
no partial results are produced (first conjunct).  Moreover the error reaches the
caller unchanged: when the very first opened file (`none`, size 8) is missing,
the function's outcome is exactly that `FileNotFoundError` (second conjunct). -/
theorem claim_C9_errors_propagate (fuel : Nat) (fs : String → Option (List String))
    (folder ds t : String) (s : Nat)
    (ht : t ∈ types) (hs : s ∈ per_vision_sizes) (hskip : ¬(t = "none" ∧ 8 < s))
    (hbad : fs (fileName folder t s) = none ∨
      ∃ c, fs (fileName folder t s) = some c ∧
        ∀ acc, scanFuel ds fuel false c acc = some .err) :
    (∀ r, per_vision_data fuel fs folder ds ≠ some (.ok r)) ∧
    (fs (fileName folder "none" 8) = none →
      per_vision_data fuel fs folder ds =
        some (.error (.fileNotFound (fileName folder "none" 8)))) := by
  constructor
  · intro r hper
    have hps := processSizes_never_ok fuel fs folder ds t s hbad hskip per_vision_sizes hs
    have hbd := buildDicts_never_ok fuel fs folder ds t hps types ht VisionData.empty
    rw [per_vision_data] at hper
    cases hB : buildDicts fuel fs folder ds types VisionData.empty with
    | none => rw [hB] at hper; cases hper
    | some res =>
      cases res with
      | error e => rw [hB] at hper; cases hper
      | ok r0 => exact hbd r0 hB
  · intro hfs
    have hP : processSizes fuel fs folder ds "none" per_vision_sizes MetricAcc.empty =
        some (.error (.fileNotFound (fileName folder "none" 8))) := by
      rw [show per_vision_sizes = 8 :: per_vision_sizes.tail from by decide,
        processSizes_cons, if_neg (show ¬("none" = "none" ∧ 8 < 8) by decide), hfs]
    have hB : buildDicts fuel fs folder ds types VisionData.empty =
        some (.error (.fileNotFound (fileName folder "none" 8))) := by
      show buildDicts fuel fs folder ds ("none" :: types.tail) VisionData.empty = _
      simp [buildDicts, hP]
    rw [per_vision_data, hB]

/-- C9 witness: with an empty filesystem, `per_vision_data` neither returns normal
results nor hides the error — it is exactly the `FileNotFoundError` for the first
missing file `f/none_8.txt`. -/
theorem claim_C9_witness :
    per_vision_data 2 (fun _ => none) "f" "D" ≠ some (.ok VisionData.empty) ∧
    per_vision_data 2 (fun _ => none) "f" "D" =
      some (.error (.fileNotFound (fileName "f" "none" 8))) := by
  have h := claim_C9_errors_propagate 2 (fun _ => none) "f" "D" "none" 8
    (by decide) (by decide) (by decide) (Or.inl rfl)
  exact ⟨h.1 VisionData.empty, h.2 rfl⟩
